import Mathlib

/-!
Shallow embedding of the OpenFDA drug-label MCP server (`src/index.ts`,
canonical variant with zod validation, summarization and detail fetch).
JavaScript values arriving from JSON are modelled by the `Json` type below;
platform builtins (`fetch`, `JSON.parse`) are modelled as oracle parameters.
-/

/-- JSON values, the shape of everything the server reads from the upstream
API and of every payload it serializes back to the caller. -/
inductive Json where
  | null
  | bool (b : Bool)
  | num (n : Int)
  | str (s : String)
  | arr (elems : List Json)
  | obj (fields : List (String × Json))

/-- First-match association lookup in a JSON object's field list (JavaScript
object keys are unique, so first match is the only match on real data). -/
def lookupKv : List (String × Json) → String → Option Json
  | [], _ => none
  | (k, v) :: rest, key => if k = key then some v else lookupKv rest key

/-- Property access `value[key]`: defined on objects, `none` (undefined)
on every other shape. -/
def Json.getField : Json → String → Option Json
  | .obj kvs, key => lookupKv kvs key
  | _, _ => none

/-- JavaScript truthiness of a JSON value (`NaN` does not arise here). -/
def Json.truthy : Json → Bool
  | .null => false
  | .bool b => b
  | .num n => n != 0
  | .str s => s != ""
  | .arr _ => true
  | .obj _ => true

/-- JavaScript `a || b` on JSON values: `a` when truthy, else `b`. -/
def jsOr (a b : Json) : Json :=
  if a.truthy then a else b

/-- JavaScript `n || d` on numbers as used for the parsed `limit`. -/
def jsNumOr (n d : Int) : Int :=
  if n = 0 then d else n

/-- Escaping of one character inside a JSON string literal as performed by
`JSON.stringify` (sub-0x20 characters other than the named ones do not occur
in the fixed strings this server emits). -/
def escapeJsonChar (c : Char) : String :=
  if c = '"' then "\\\""
  else if c = '\\' then "\\\\"
  else if c = '\n' then "\\n"
  else if c = '\t' then "\\t"
  else if c = '\r' then "\\r"
  else String.singleton c

/-- Escaping of a whole string for a JSON string literal. -/
def escapeJsonString (s : String) : String :=
  String.join (s.data.map escapeJsonChar)

/-- Indentation of `n` spaces used by `JSON.stringify(x, null, 2)`. -/
def indentStr (n : Nat) : String :=
  String.mk (List.replicate n ' ')

mutual

/-- Serialization of a JSON value as `JSON.stringify(x, null, 2)` renders it
at indentation level `ind`. -/
def stringifyJson (ind : Nat) : Json → String
  | .null => "null"
  | .bool true => "true"
  | .bool false => "false"
  | .num n => toString n
  | .str s => "\"" ++ escapeJsonString s ++ "\""
  | .arr [] => "[]"
  | .arr (x :: xs) =>
      "[\n" ++ stringifyElems (ind + 2) (x :: xs) ++ "\n" ++ indentStr ind ++ "]"
  | .obj [] => "\x7b\x7d"
  | .obj (kv :: kvs) =>
      "\x7b\n" ++ stringifyMembers (ind + 2) (kv :: kvs) ++ "\n" ++ indentStr ind ++ "\x7d"

/-- Serialization of array elements, one per line, comma separated. -/
def stringifyElems (ind : Nat) : List Json → String
  | [] => ""
  | [x] => indentStr ind ++ stringifyJson ind x
  | x :: y :: xs =>
      indentStr ind ++ stringifyJson ind x ++ ",\n" ++ stringifyElems ind (y :: xs)

/-- Serialization of object members, one per line, comma separated. -/
def stringifyMembers (ind : Nat) : List (String × Json) → String
  | [] => ""
  | [(k, v)] => indentStr ind ++ "\"" ++ escapeJsonString k ++ "\": " ++ stringifyJson ind v
  | (k, v) :: kv :: kvs =>
      indentStr ind ++ "\"" ++ escapeJsonString k ++ "\": " ++ stringifyJson ind v ++
        ",\n" ++ stringifyMembers ind (kv :: kvs)

end

/-- Top-level `JSON.stringify(x, null, 2)`. -/
def stringify (j : Json) : String :=
  stringifyJson 0 j

/-- Does the character list `hay` start with `needle`? -/
def startsL : List Char → List Char → Bool
  | _, [] => true
  | [], _ :: _ => false
  | a :: as, b :: bs => (a == b) && startsL as bs

/-- Does the character list `hay` contain `needle` as a contiguous run? -/
def containsL : List Char → List Char → Bool
  | [], needle => needle.isEmpty
  | a :: t, needle => startsL (a :: t) needle || containsL t needle

/-- Substring test on strings, via their character lists. -/
def containsStr (hay needle : String) : Bool :=
  containsL hay.data needle.data

/-- Escaping of every embedded double quote by prefixing one backslash; this
is the transformation the specification asserts the name-lookup query builder
applies to the caller's string (the source applies no such transformation). -/
def escapeQuotesOnce (s : String) : String :=
  String.join (s.data.map (fun c => if c = '"' then "\\\"" else String.singleton c))

/-- Argument of `truncateText`: the source declares `text: string | string[]`
and is also invoked with absent (`undefined`) label sections. -/
inductive TextInput where
  | absent
  | str (s : String)
  | arr (l : List String)

/-- JavaScript falsiness of a `truncateText` argument (`!text`): `undefined`
and the empty string are falsy, an array never is. -/
def TextInput.falsy : TextInput → Bool
  | .absent => true
  | .str s => s == ""
  | .arr _ => false

/-- The joined text the source works on: `Array.isArray(text) ? text.join(" ") : text`,
with the absent case carrying the empty string. -/
def joinedText : TextInput → String
  | .absent => ""
  | .str s => s
  | .arr l => String.intercalate " " l

/-- Model of `truncateText(text, maxLength)` from `src/index.ts` lines 265-272:
returns `""` for falsy input, the joined text when its length is within
`maxLength`, and otherwise the first `maxLength` characters followed by the
literal marker. -/
def truncateText (text : TextInput) (maxLength : Nat := 500) : String :=
  if text.falsy then ""
  else
    let textStr := joinedText text
    if textStr.length ≤ maxLength then textStr
    else textStr.take maxLength ++ "... [truncated]"

/-- Parameter object accepted by `makeRequest` (the zod-inferred
`DrugLabelSearchParams`: optional `search` and `count`, numeric `skip` and
`limit` after defaulting). -/
structure DrugLabelSearchParams where
  search : Option String
  count : Option String
  skip : Int
  limit : Int

/-- JavaScript truthiness of an optional string parameter: `undefined` and
`""` are falsy. -/
def optStrTruthy : Option String → Bool
  | none => false
  | some s => s != ""

/-- URL query parameters set by `makeRequest` (lines 301-315): each key is set
only when its value is truthy, so `skip` and `limit` are omitted when `0` and
`search`/`count` when absent or empty. Insertion order matches the source. -/
def makeRequestUrlParams (p : DrugLabelSearchParams) : List (String × String) :=
  (if optStrTruthy p.search then [("search", p.search.getD "")] else []) ++
  (if optStrTruthy p.count then [("count", p.count.getD "")] else []) ++
  (if p.skip != 0 then [("skip", toString p.skip)] else []) ++
  (if p.limit != 0 then [("limit", toString p.limit)] else [])

/-- The `meta.results` block of an upstream response. -/
structure MetaResults where
  skip : Int
  limit : Int
  total : Int

/-- The `meta` block of an upstream response, read defensively. -/
structure OpenFDAMeta where
  results : Option MetaResults

/-- An upstream JSON response: `meta` and the `results` array, both of which
the source reads through optional chaining. -/
structure OpenFDAResponse where
  meta : Option OpenFDAMeta
  results : Option (List Json)

/-- The expression `data.meta?.results?.total || 0`. -/
def metaTotalOrZero (data : OpenFDAResponse) : Int :=
  match data.meta with
  | some m =>
    match m.results with
    | some r => r.total
    | none => 0
  | none => 0

/-- Limit bounds and default a tool advertises in the JSON `inputSchema` it
serves to clients from the list-tools catalog. -/
structure LimitSpec where
  lo : Int
  hi : Int
  dflt : Int

/-- Advertised limit bounds of `search_drug_labels` (catalog lines 101-107:
default 10, minimum 1, maximum 100). -/
def searchLabelsLimitDeclared : LimitSpec := ⟨1, 100, 10⟩

/-- Advertised limit bounds of `get_drug_adverse_reactions`,
`get_drug_warnings` and `get_drug_indications` (catalog: default 5,
minimum 1, maximum 10). -/
def drugQueryLimitDeclared : LimitSpec := ⟨1, 10, 5⟩

/-- Validation of `limit` by `DrugLabelSearchParamsSchema` (line 19:
`z.coerce.number().int().min(1).max(200).optional().default(50)`), with the
numeric input already coerced to an integer. Out-of-range values are rejected
with a zod error, never clamped. -/
def parseSearchLabelsLimit : Option Int → Except String Int
  | none => .ok 50
  | some n =>
    if n < 1 then .error "Number must be greater than or equal to 1"
    else if n > 200 then .error "Number must be less than or equal to 200"
    else .ok n

/-- Validation of `limit` by `DrugQueryParamsSchema` (line 27:
`z.coerce.number().int().min(1).max(5).optional().default(3)`). -/
def parseDrugQueryLimit : Option Int → Except String Int
  | none => .ok 3
  | some n =>
    if n < 1 then .error "Number must be greater than or equal to 1"
    else if n > 5 then .error "Number must be less than or equal to 5"
    else .ok n

/-- Search expression built by `getDrugAdverseReactions` (line 352): the
caller's string is interpolated verbatim into three quoted field clauses. -/
def adverseReactionsSearchQuery (drugName : String) : String :=
  "openfda.brand_name:\"" ++ drugName ++ "\" OR openfda.generic_name:\"" ++ drugName ++
    "\" OR openfda.substance_name:\"" ++ drugName ++ "\""

/-- Search expression built by `getDrugWarnings` (line 385), textually
identical to the adverse-reactions one. -/
def warningsSearchQuery (drugName : String) : String :=
  "openfda.brand_name:\"" ++ drugName ++ "\" OR openfda.generic_name:\"" ++ drugName ++
    "\" OR openfda.substance_name:\"" ++ drugName ++ "\""

/-- Search expression built by `getDrugIndications` (line 419), textually
identical to the adverse-reactions one. -/
def indicationsSearchQuery (drugName : String) : String :=
  "openfda.brand_name:\"" ++ drugName ++ "\" OR openfda.generic_name:\"" ++ drugName ++
    "\" OR openfda.substance_name:\"" ++ drugName ++ "\""

/-- Parameter object `getDrugAdverseReactions` passes to `makeRequest`
(lines 354-358): the name search expression, the caller's limit, skip 0. -/
def adverseQueryParams (drugName : String) (limit : Int) : DrugLabelSearchParams :=
  { search := some (adverseReactionsSearchQuery drugName), count := none
    skip := 0, limit := limit }

/-- Parameter object `getDrugIndications` passes to `makeRequest`
(lines 421-425). -/
def indicationsQueryParams (drugName : String) (limit : Int) : DrugLabelSearchParams :=
  { search := some (indicationsSearchQuery drugName), count := none
    skip := 0, limit := limit }

/-- Parameter object `getDrugDetails` passes to `makeRequest` (lines 452-456):
the set identifier interpolated verbatim into `set_id:"..."`, limit fixed
at 1, skip 0; the caller's optional `fields` argument does not enter it. -/
def detailQueryParams (setId : String) : DrugLabelSearchParams :=
  { search := some ("set_id:\"" ++ setId ++ "\""), count := none
    skip := 0, limit := 1 }

/-- One element of a tool result's `content` array; `text` always holds a
serialized string. -/
structure ContentBlock where
  type : String
  text : String

/-- The observable output of a successful tool invocation. -/
structure ToolResult where
  content : List ContentBlock

/-- MCP error codes used by the dispatch handler. -/
inductive McpErrorCode where
  | invalidParams
  | methodNotFound
  | internalError

/-- A value thrown inside the server: either a structured `McpError` or any
other JavaScript exception, carried by its string rendering (the form the
source interpolates with a template literal). -/
inductive Thrown where
  | mcp (code : McpErrorCode) (msg : String)
  | js (msg : String)

/-- The expression `result.openfda?.x?.[0]` on a label record: first element
of the named `openfda` sub-array, `null` standing for every absent or
non-array case. -/
def openfdaFirst (result : Json) (key : String) : Json :=
  match result.getField "openfda" with
  | some o =>
    match o.getField key with
    | some (.arr (x :: _)) => x
    | _ => .null
  | none => .null

/-- The pattern `result.k || []`: the raw field when truthy, else an empty
array. -/
def fieldOrEmptyArr (result : Json) (key : String) : Json :=
  match result.getField key with
  | some v => if v.truthy then v else .arr []
  | none => .arr []

/-- Stringification an element undergoes inside `Array.prototype.join`
(`null` joins as the empty string; label-section arrays hold strings). -/
def jsonElemToString : Json → String
  | .str s => s
  | .num n => toString n
  | .bool b => toString b
  | _ => ""

/-- Conversion of a raw label-record field into a `truncateText` argument:
strings and string arrays pass through, absent and `null` behave like the
source's `!text` guard (label sections take no other shape). -/
def jsonToTextInput : Option Json → TextInput
  | some (.str s) => .str s
  | some (.arr l) => .arr (l.map jsonElemToString)
  | _ => .absent

/-- One element of `indications_data` as `getDrugIndications` builds it
(lines 427-433): names defaulted to "Unknown", two truncated sections, and
the record's `set_id`. -/
def indicationsEntry (result : Json) : Json :=
  .obj [
    ("drug_name", jsOr (openfdaFirst result "brand_name")
      (jsOr (openfdaFirst result "generic_name") (.str "Unknown"))),
    ("manufacturer", jsOr (openfdaFirst result "manufacturer_name") (.str "Unknown")),
    ("indications_and_usage",
      .str (truncateText (jsonToTextInput (result.getField "indications_and_usage")) 400)),
    ("dosage_and_administration",
      .str (truncateText (jsonToTextInput (result.getField "dosage_and_administration")) 300)),
    ("set_id", (result.getField "set_id").getD .null)]

/-- The JSON object `getDrugIndications` serializes into its text block
(lines 439-445). -/
def indicationsPayload (drugName : String) (data : OpenFDAResponse) : Json :=
  .obj [
    ("query", .str drugName),
    ("total_results", .num (metaTotalOrZero data)),
    ("returned_count", .num ((data.results.getD []).map indicationsEntry).length),
    ("indications_data", .arr ((data.results.getD []).map indicationsEntry)),
    ("note", .str "Text has been truncated for brevity. Use get_drug_details with set_id for full information.")]

/-- The tool result `getDrugIndications` returns on upstream success. -/
def indicationsResult (drugName : String) (data : OpenFDAResponse) : ToolResult :=
  { content := [{ type := "text", text := stringify (indicationsPayload drugName data) }] }

/-- Model of `getDrugIndications(drugName, limit)` (lines 418-449): builds the
name query, fetches through the oracle `fetch` (the HTTP layer), and shapes
the response; a `makeRequest` failure propagates as the thrown `Error`. -/
def getDrugIndicationsRun (drugName : String) (limit : Int)
    (fetch : DrugLabelSearchParams → Except String OpenFDAResponse) :
    Except Thrown ToolResult :=
  match fetch (indicationsQueryParams drugName limit) with
  | .error e => .error (.js e)
  | .ok data => .ok (indicationsResult drugName data)

/-- The not-found JSON object `getDrugDetails` serializes when the upstream
results array is absent or empty (lines 458-470). -/
def notFoundPayload (setId : String) : Json :=
  .obj [
    ("error", .str "No drug found with the specified set_id"),
    ("set_id", .str setId)]

/-- The not-found tool result of `getDrugDetails`. -/
def notFoundDetailsResult (setId : String) : ToolResult :=
  { content := [{ type := "text", text := stringify (notFoundPayload setId) }] }

/-- Object assignment `o[k] = v`: overwrite in place when the key exists,
else append. -/
def upsertField (o : List (String × Json)) (k : String) (v : Json) :
    List (String × Json) :=
  if o.any (fun p => p.1 = k) then o.map (fun p => if p.1 = k then (k, v) else p)
  else o ++ [(k, v)]

/-- One iteration of the allow-list loop of `getDrugDetails` (lines 477-481):
`if (result[field]) responseData[field] = result[field]`, so only a field
present with a truthy value is copied. -/
def detailFieldStep (result : Json) (acc : List (String × Json)) (field : String) :
    List (String × Json) :=
  match result.getField field with
  | some v => if v.truthy then upsertField acc field v else acc
  | none => acc

/-- The allow-list loop of `getDrugDetails` (lines 475-481) over the whole
requested field list, starting from the empty object. -/
def detailFieldsPayload (result : Json) (fields : List String) :
    List (String × Json) :=
  fields.foldl (detailFieldStep result) []

/-- The default detail object of `getDrugDetails` when no field list is
supplied (lines 483-499): key sections in full, absent ones normalized to
empty arrays. -/
def defaultDetailData (result : Json) : Json :=
  .obj [
    ("drug_name", jsOr (openfdaFirst result "brand_name")
      (jsOr (openfdaFirst result "generic_name") (.str "Unknown"))),
    ("manufacturer", jsOr (openfdaFirst result "manufacturer_name") (.str "Unknown")),
    ("indications_and_usage", fieldOrEmptyArr result "indications_and_usage"),
    ("warnings", fieldOrEmptyArr result "warnings"),
    ("adverse_reactions", fieldOrEmptyArr result "adverse_reactions"),
    ("contraindications", fieldOrEmptyArr result "contraindications"),
    ("dosage_and_administration", fieldOrEmptyArr result "dosage_and_administration"),
    ("drug_interactions", fieldOrEmptyArr result "drug_interactions"),
    ("boxed_warning", fieldOrEmptyArr result "boxed_warning"),
    ("precautions", fieldOrEmptyArr result "precautions"),
    ("pregnancy", fieldOrEmptyArr result "pregnancy"),
    ("set_id", (result.getField "set_id").getD .null),
    ("version", (result.getField "version").getD .null)]

/-- The `drug_details` object: the allow-list projection when a non-empty
field list was supplied, otherwise the default detail object. -/
def detailsResponseData (result : Json) (fields : Option (List String)) : Json :=
  match fields with
  | some fs => if fs.length > 0 then .obj (detailFieldsPayload result fs)
               else defaultDetailData result
  | none => defaultDetailData result

/-- The successful tool result of `getDrugDetails` (lines 501-513). -/
def detailsOkResult (setId : String) (fields : Option (List String))
    (result : Json) : ToolResult :=
  { content := [{ type := "text", text := stringify (.obj [
      ("set_id", .str setId),
      ("drug_details", detailsResponseData result fields),
      ("note", .str "This is the complete, untruncated information for this drug.")]) }] }

/-- Model of `getDrugDetails(setId, fields)` (lines 451-513): fetches by
`set_id` with limit 1, answers not-found as a normal result when the results
array is absent or empty, and otherwise shapes the first record. -/
def getDrugDetailsRun (setId : String) (fields : Option (List String))
    (fetch : DrugLabelSearchParams → Except String OpenFDAResponse) :
    Except Thrown ToolResult :=
  match fetch (detailQueryParams setId) with
  | .error e => .error (.js e)
  | .ok data =>
    match data.results with
    | none => .ok (notFoundDetailsResult setId)
    | some [] => .ok (notFoundDetailsResult setId)
    | some (result :: _) => .ok (detailsOkResult setId fields result)

/-- Modelled from the spec: the health/connectivity probe tool is described
by the specification (section 4.1: no search expression, limit forced to 1)
but no such tool is present in the files under `src/`. Its query carries no
search expression and a limit of 1. -/
def healthProbeQueryParams : DrugLabelSearchParams :=
  { search := none, count := none, skip := 0, limit := 1 }

/-- Modelled from the spec: the health-probe tool's behavior (sections 7 and
8, scenario C), absent from the files under `src/`. On an upstream failure it
completes as a successful tool result whose text is exactly
`error: <message>`; it never raises; on success it relays the upstream body. -/
def healthProbeRun (fetch : DrugLabelSearchParams → Except String Json) :
    Except Thrown ToolResult :=
  match fetch healthProbeQueryParams with
  | .error msg => .ok { content := [{ type := "text", text := "error: " ++ msg }] }
  | .ok body => .ok { content := [{ type := "text", text := stringify body }] }

/-- The `arguments` member of an incoming call-tool request: a structured
value, a double-encoded JSON string, or absent. -/
inductive RawArgs where
  | value (j : Json)
  | encoded (s : String)
  | absent

/-- Argument decoding of the dispatch handler (lines 202-215): a string is
fed to `JSON.parse` (modelled by the oracle `jsonParse`), whose failure is
reported as an `InvalidParams` `McpError`; anything else passes through. -/
def decodeArgs (jsonParse : String → Except String Json) :
    RawArgs → Except Thrown (Option Json)
  | .encoded s =>
    match jsonParse s with
    | .ok j => .ok (some j)
    | .error e => .error (.mcp .invalidParams ("Failed to parse arguments string: " ++ e))
  | .value j => .ok (some j)
  | .absent => .ok none

/-- Tool names the dispatch switch recognizes (lines 226-244). -/
def knownToolNames : List String :=
  ["search_drug_labels", "get_drug_adverse_reactions", "get_drug_warnings",
   "get_drug_indications", "get_drug_details"]

/-- Model of the call-tool request handler (lines 199-261). Validation and
tool execution inside the `try` block are abstracted by the oracle `exec`,
which may throw anything (zod errors, HTTP errors, parse errors); the
`catch` rethrows an `McpError` unchanged and wraps every other exception as
an `InternalError` naming the tool. -/
def callToolHandler (jsonParse : String → Except String Json)
    (exec : String → Json → Except Thrown ToolResult)
    (name : String) (rawArgs : RawArgs) : Except Thrown ToolResult :=
  match decodeArgs jsonParse rawArgs with
  | .error e => .error e
  | .ok decoded =>
    match decoded with
    | none => .error (.mcp .invalidParams "Missing arguments")
    | some args =>
      if args.truthy then
        match (if name ∈ knownToolNames then exec name args
               else .error (.mcp .methodNotFound ("Unknown tool: " ++ name))) with
        | .ok r => .ok r
        | .error (.mcp c m) => .error (.mcp c m)
        | .error (.js m) =>
          .error (.mcp .internalError ("Error executing tool " ++ name ++ ": " ++ m))
      else .error (.mcp .invalidParams "Missing arguments")

/-- Fetch oracle for witnesses: every upstream call fails with a fixed
HTTP-style error message. -/
def fetchAlwaysErr : DrugLabelSearchParams → Except String Json :=
  fun _ => .error "OpenFDA API error (500): boom"

/-- Fetch oracle for witnesses: upstream succeeds with no `meta` and no
`results`. -/
def fetchEmptyOk : DrugLabelSearchParams → Except String OpenFDAResponse :=
  fun _ => .ok { meta := none, results := none }

/-- Fetch oracle for witnesses: upstream succeeds with a single empty
record. -/
def fetchOneRecordOk : DrugLabelSearchParams → Except String OpenFDAResponse :=
  fun _ => .ok { meta := none, results := some [.obj []] }

/-- JSON-parse oracle for witnesses: parsing always fails. -/
def jsonParseFail : String → Except String Json :=
  fun _ => .error "Unexpected token"

/-- Execution oracle for witnesses: every tool body throws a plain
JavaScript error. -/
def execThrowsJs : String → Json → Except Thrown ToolResult :=
  fun _ _ => .error (.js "boom")

example : makeRequestUrlParams (indicationsQueryParams "ibuprofen" 3) =
    [("search", indicationsSearchQuery "ibuprofen"), ("limit", "3")] := by decide
example : truncateText (.str "abcd") 4 = "abcd" := by decide
example : truncateText (.str "abcde") 4 = "abcd... [truncated]" := by decide
example : truncateText (.arr ["ab", "c"]) 3 = "ab ... [truncated]" := by decide
example : truncateText .absent 0 = "" := by decide
example : containsStr "hello world" "lo wo" = true := by decide
example : containsStr "hello" "he " = false := by decide
example : escapeQuotesOnce "a\"b" = "a\\\"b" := by decide

theorem startsL_append_self (n r : List Char) : startsL (n ++ r) n = true := by
  induction n with
  | nil => cases r <;> rfl
  | cons a t ih => simp [startsL, ih]

theorem containsL_of_startsL (h n : List Char) (hs : startsL h n = true) :
    containsL h n = true := by
  cases h with
  | nil =>
    cases n with
    | nil => rfl
    | cons b bs => simp [startsL] at hs
  | cons a t => simp [containsL, hs]

theorem containsL_append_mid (p n r : List Char) :
    containsL (p ++ (n ++ r)) n = true := by
  induction p with
  | nil => simpa using containsL_of_startsL (n ++ r) n (startsL_append_self n r)
  | cons a t ih => simp [containsL, ih]

theorem containsStr_of_prefix (mid post s : String) (h : s = mid ++ post) :
    containsStr s mid = true := by
  subst h
  unfold containsStr
  simp only [String.data_append]
  exact containsL_of_startsL _ _ (startsL_append_self _ _)

theorem containsStr_of_mid (pre mid post s : String)
    (h : s = pre ++ (mid ++ post)) : containsStr s mid = true := by
  subst h
  unfold containsStr
  simp only [String.data_append]
  exact containsL_append_mid _ _ _

theorem nameSearchDecomp (s : String) :
    adverseReactionsSearchQuery s =
      ("openfda.brand_name:\"" ++ s ++ "\"") ++ " OR " ++
      ("openfda.generic_name:\"" ++ s ++ "\"") ++ " OR " ++
      ("openfda.substance_name:\"" ++ s ++ "\"") := by
  have h2 : ("\" OR openfda.generic_name:\"" : String) =
      "\"" ++ (" OR " ++ "openfda.generic_name:\"") := by decide
  have h3 : ("\" OR openfda.substance_name:\"" : String) =
      "\"" ++ (" OR " ++ "openfda.substance_name:\"") := by decide
  unfold adverseReactionsSearchQuery
  rw [h2, h3]
  simp only [String.append_assoc]

/-- C1 (counterexample): at the caller string `a"b` the built adverse-reactions
search expression does not contain a brand-name clause with the embedded double
quote escaped by a backslash; the clause with the quote left unescaped appears
instead, so the claim's escaping property fails at this input. -/
theorem nameSearch_noEscape_counterexample :
    containsStr (adverseReactionsSearchQuery "a\"b")
      ("openfda.brand_name:\"" ++ escapeQuotesOnce "a\"b" ++ "\"") = false ∧
    containsStr (adverseReactionsSearchQuery "a\"b")
      ("openfda.brand_name:\"a\"b\"") = true := by decide

/-- C1 (amended): for every caller string, all three name-lookup tools build the
same search expression, which contains both the brand-name and the generic-name
clause, disjoined with " OR ", with the string wrapped in double quotes and
interpolated verbatim — embedded double quotes are not escaped, and every
character passes through unchanged. -/
theorem nameSearchQuery_clauses_verbatim (s : String) :
    adverseReactionsSearchQuery s =
      ("openfda.brand_name:\"" ++ s ++ "\"") ++ " OR " ++
      ("openfda.generic_name:\"" ++ s ++ "\"") ++ " OR " ++
      ("openfda.substance_name:\"" ++ s ++ "\"") ∧
    warningsSearchQuery s = adverseReactionsSearchQuery s ∧
    indicationsSearchQuery s = adverseReactionsSearchQuery s ∧
    containsStr (adverseReactionsSearchQuery s)
      ("openfda.brand_name:\"" ++ s ++ "\"") = true ∧
    containsStr (adverseReactionsSearchQuery s)
      ("openfda.generic_name:\"" ++ s ++ "\"") = true ∧
    containsStr (adverseReactionsSearchQuery s) " OR " = true := by
  refine ⟨nameSearchDecomp s, rfl, rfl, ?_, ?_, ?_⟩
  · apply containsStr_of_prefix _ (" OR " ++ ("openfda.generic_name:\"" ++ s ++ "\"") ++
      " OR " ++ ("openfda.substance_name:\"" ++ s ++ "\""))
    rw [nameSearchDecomp s]
    simp only [String.append_assoc]
  · apply containsStr_of_mid (("openfda.brand_name:\"" ++ s ++ "\"") ++ " OR ") _
      (" OR " ++ ("openfda.substance_name:\"" ++ s ++ "\""))
    rw [nameSearchDecomp s]
    simp only [String.append_assoc]
  · apply containsStr_of_mid ("openfda.brand_name:\"" ++ s ++ "\"") _
      (("openfda.generic_name:\"" ++ s ++ "\"") ++ " OR " ++
        ("openfda.substance_name:\"" ++ s ++ "\""))
    rw [nameSearchDecomp s]
    simp only [String.append_assoc]

/-- C2 (code-bug evidence): the limit 7 lies inside the bounds [1, 10] that
`get_drug_adverse_reactions` advertises in its `inputSchema`, yet the zod
validator `DrugQueryParamsSchema` (max 5) rejects it; the limit 150 lies
outside the bounds [1, 100] advertised by `search_drug_labels`, yet
`DrugLabelSearchParamsSchema` (max 200) accepts it unchanged; an in-range
value such as 4 passes validation, survives the dispatcher's `limit || 5`,
and is placed unchanged in the constructed query. -/
theorem limit_declared_vs_validated_mismatch :
    (drugQueryLimitDeclared.lo ≤ 7 ∧ (7 : Int) ≤ drugQueryLimitDeclared.hi) ∧
    parseDrugQueryLimit (some 7) = .error "Number must be less than or equal to 5" ∧
    ¬ ((150 : Int) ≤ searchLabelsLimitDeclared.hi) ∧
    parseSearchLabelsLimit (some 150) = .ok 150 ∧
    parseDrugQueryLimit (some 4) = .ok 4 ∧
    jsNumOr 4 5 = 4 ∧
    (adverseQueryParams "aspirin" (jsNumOr 4 5)).limit = 4 := by
  refine ⟨by decide, rfl, by decide, rfl, rfl, rfl, rfl⟩

/-- C3: truncation is exact at the boundary — a joined text whose length equals
the maximum is returned unmodified, and one whose length is at least the
maximum plus one is cut to exactly the first `m` characters followed by the
literal truncation marker. -/
theorem truncateText_boundary (t : TextInput) (m : Nat) :
    ((joinedText t).length = m → truncateText t m = joinedText t) ∧
    (m + 1 ≤ (joinedText t).length →
      truncateText t m = (joinedText t).take m ++ "... [truncated]") := by
  constructor
  · intro h
    by_cases hf : t.falsy
    · have hj : joinedText t = "" := by
        cases t with
        | absent => rfl
        | str s =>
          have : s = "" := by simpa [TextInput.falsy] using hf
          simp [joinedText, this]
        | arr l => simp [TextInput.falsy] at hf
      simp [truncateText, hf, hj]
    · have hle : (joinedText t).length ≤ m := le_of_eq h
      simp [truncateText, hf, hle]
  · intro h
    have hf : t.falsy = false := by
      cases t with
      | absent => simp [joinedText, String.length_empty] at h
      | str s =>
        by_cases hs : s = ""
        · subst hs
          simp [joinedText, String.length_empty] at h
        · simp [TextInput.falsy, hs]
      | arr l => rfl
    have hgt : ¬ (joinedText t).length ≤ m := by omega
    simp [truncateText, hf, hgt]

/-- C3 (witness): at the boundary, a four-character string survives a maximum
of four unmodified, and a joined text one character past a maximum of three is
cut to its first three characters plus the marker. -/
theorem truncateText_boundary_witness :
    truncateText (.str "abcd") 4 = "abcd" ∧
    truncateText (.arr ["ab", "c"]) 3 =
      (joinedText (.arr ["ab", "c"])).take 3 ++ "... [truncated]" :=
  ⟨(truncateText_boundary (.str "abcd") 4).1 (by decide),
   (truncateText_boundary (.arr ["ab", "c"]) 3).2 (by decide)⟩

/-- C4: truncation is the identity on short text — whenever the joined text is
strictly shorter than the field maximum, the output is the joined input
unchanged, with no marker appended. -/
theorem truncateText_short_identity (t : TextInput) (m : Nat)
    (h : (joinedText t).length < m) : truncateText t m = joinedText t := by
  by_cases hf : t.falsy
  · have hj : joinedText t = "" := by
      cases t with
      | absent => rfl
      | str s =>
        have : s = "" := by simpa [TextInput.falsy] using hf
        simp [joinedText, this]
      | arr l => simp [TextInput.falsy] at hf
    simp [truncateText, hf, hj]
  · have hle : (joinedText t).length ≤ m := le_of_lt h
    simp [truncateText, hf, hle]

/-- C4 (witness): a two-string sequence joining to five characters is returned
unchanged under a maximum of three hundred. -/
theorem truncateText_short_identity_witness :
    truncateText (.arr ["warn", ""]) 300 = joinedText (.arr ["warn", ""]) :=
  truncateText_short_identity (.arr ["warn", ""]) 300 (by decide)

/-- C5: a detail lookup whose upstream response has an absent or empty results
array completes as a normal tool result — no error is thrown — and its payload
carries the requested identifier under `set_id` together with an `error` field
marking the record as not found. -/
theorem getDrugDetails_notFound (setId : String) (fields : Option (List String))
    (fetch : DrugLabelSearchParams → Except String OpenFDAResponse)
    (data : OpenFDAResponse)
    (hok : fetch (detailQueryParams setId) = .ok data)
    (hempty : data.results = none ∨ data.results = some []) :
    getDrugDetailsRun setId fields fetch = .ok (notFoundDetailsResult setId) ∧
    (notFoundPayload setId).getField "set_id" = some (.str setId) ∧
    (notFoundPayload setId).getField "error" =
      some (.str "No drug found with the specified set_id") := by
  refine ⟨?_, rfl, rfl⟩
  unfold getDrugDetailsRun
  rw [hok]
  rcases hempty with h | h <;> simp [h]

/-- C5 (witness): a concrete lookup against an upstream with no results array
returns the structured not-found result. -/
theorem getDrugDetails_notFound_witness :
    getDrugDetailsRun "abc-123" none fetchEmptyOk = .ok (notFoundDetailsResult "abc-123") ∧
    (notFoundPayload "abc-123").getField "set_id" = some (.str "abc-123") :=
  have h := getDrugDetails_notFound "abc-123" none fetchEmptyOk
    { meta := none, results := none } rfl (Or.inl rfl)
  ⟨h.1, h.2.1⟩

theorem mapSelfOfMem {α : Type} (l : List α) (g : α → α) (h : ∀ a ∈ l, g a = a) :
    l.map g = l := by
  induction l with
  | nil => rfl
  | cons a t ih =>
    rw [List.map_cons, h a (List.mem_cons_self a t),
      ih (fun b hb => h b (List.mem_cons_of_mem a hb))]

theorem detailFields_foldl_inv (result : Json) (fields : List String) :
    ∀ (processed : List String) (acc : List (String × Json)),
    (∀ k v, (k, v) ∈ acc ↔ k ∈ processed ∧ result.getField k = some v ∧ v.truthy = true) →
    ∀ k v, (k, v) ∈ fields.foldl (detailFieldStep result) acc ↔
      ((k ∈ processed ∨ k ∈ fields) ∧ result.getField k = some v ∧ v.truthy = true) := by
  induction fields with
  | nil =>
    intro processed acc hInv k v
    rw [List.foldl_nil, hInv k v]
    simp
  | cons f fs ih =>
    intro processed acc hInv k v
    rw [List.foldl_cons]
    have hInv' : ∀ k v, (k, v) ∈ detailFieldStep result acc f ↔
        k ∈ f :: processed ∧ result.getField k = some v ∧ v.truthy = true := by
      intro k v
      cases hv : result.getField f with
      | none =>
        have hstep : detailFieldStep result acc f = acc := by
          unfold detailFieldStep
          rw [hv]
        rw [hstep, hInv k v]
        constructor
        · rintro ⟨hk, hg, ht⟩
          exact ⟨List.mem_cons_of_mem f hk, hg, ht⟩
        · rintro ⟨hk, hg, ht⟩
          rcases List.mem_cons.mp hk with rfl | hkp
          · rw [hv] at hg
            exact absurd hg (by simp)
          · exact ⟨hkp, hg, ht⟩
      | some v0 =>
        by_cases ht0 : v0.truthy
        · have hstep : detailFieldStep result acc f = upsertField acc f v0 := by
            unfold detailFieldStep
            rw [hv]
            show (if v0.truthy then upsertField acc f v0 else acc) = upsertField acc f v0
            rw [if_pos ht0]
          rw [hstep]
          unfold upsertField
          by_cases hany : acc.any (fun p => p.1 = f) = true
          · rw [if_pos hany]
            have hmapid : acc.map (fun p => if p.1 = f then (f, v0) else p) = acc := by
              apply mapSelfOfMem
              intro p hp
              by_cases hpf : p.1 = f
              · rw [if_pos hpf]
                obtain ⟨k1, v1⟩ := p
                simp only at hpf
                subst hpf
                have hg1 : result.getField k1 = some v1 := ((hInv k1 v1).mp hp).2.1
                rw [hv] at hg1
                have : v0 = v1 := Option.some.inj hg1
                subst this
                rfl
              · rw [if_neg hpf]
            obtain ⟨⟨k1, v1⟩, hp, hpf⟩ := List.any_eq_true.mp hany
            have hk1 : k1 = f := by simpa using hpf
            subst hk1
            have hfproc : k1 ∈ processed := ((hInv k1 v1).mp hp).1
            rw [hmapid, hInv k v]
            constructor
            · rintro ⟨hk, hg, ht⟩
              exact ⟨List.mem_cons_of_mem k1 hk, hg, ht⟩
            · rintro ⟨hk, hg, ht⟩
              rcases List.mem_cons.mp hk with rfl | hkp
              · exact ⟨hfproc, hg, ht⟩
              · exact ⟨hkp, hg, ht⟩
          · rw [if_neg hany]
            constructor
            · intro hin
              rcases List.mem_append.mp hin with hin | hin
              · obtain ⟨hk, hg, ht⟩ := (hInv k v).mp hin
                exact ⟨List.mem_cons_of_mem f hk, hg, ht⟩
              · have hkv : (k, v) = (f, v0) := by simpa using hin
                obtain ⟨h1, h2⟩ := Prod.mk.inj hkv
                subst h1
                subst h2
                exact ⟨List.mem_cons_self k processed, hv, ht0⟩
            · rintro ⟨hk, hg, ht⟩
              rcases List.mem_cons.mp hk with rfl | hkp
              · rw [hv] at hg
                have hv0v : v0 = v := Option.some.inj hg
                subst hv0v
                exact List.mem_append.mpr (Or.inr (by simp))
              · exact List.mem_append.mpr (Or.inl ((hInv k v).mpr ⟨hkp, hg, ht⟩))
        · have hstep : detailFieldStep result acc f = acc := by
            unfold detailFieldStep
            rw [hv]
            show (if v0.truthy then upsertField acc f v0 else acc) = acc
            rw [if_neg ht0]
          rw [hstep, hInv k v]
          constructor
          · rintro ⟨hk, hg, ht⟩
            exact ⟨List.mem_cons_of_mem f hk, hg, ht⟩
          · rintro ⟨hk, hg, ht⟩
            rcases List.mem_cons.mp hk with rfl | hkp
            · rw [hv] at hg
              have : v0 = v := Option.some.inj hg
              subst this
              exact absurd ht (by simp [ht0])
            · exact ⟨hkp, hg, ht⟩
    rw [ih (f :: processed) (detailFieldStep result acc f) hInv' k v]
    simp only [List.mem_cons]
    tauto

/-- C6 (counterexample): a record on which `warnings` is present but holds the
empty string — a falsy value — yields an empty allow-list payload: the listed,
present field is omitted from the output, contradicting the claim that every
listed present field appears with its raw value. -/
theorem detailFields_presentFalsy_counterexample :
    Json.getField (.obj [("warnings", .str "")]) "warnings" = some (.str "") ∧
    detailFieldsPayload (.obj [("warnings", .str "")]) ["warnings"] = [] :=
  ⟨rfl, rfl⟩

/-- C6 (amended): for every field allow-list — duplicates included — a
field/value pair appears in the output payload exactly when the field is
listed and present on the record with a truthy value, and then it carries
exactly the record's raw value; listed fields that are absent — and, beyond
the original claim, listed fields present with a falsy value — are omitted,
and no unlisted field ever appears. -/
theorem detailFieldsPayload_mem (result : Json) (fields : List String)
    (k : String) (v : Json) :
    (k, v) ∈ detailFieldsPayload result fields ↔
      k ∈ fields ∧ result.getField k = some v ∧ v.truthy = true := by
  unfold detailFieldsPayload
  rw [detailFields_foldl_inv result fields [] [] (by simp) k v]
  simp

/-- C6 (witness): on a concrete record, a listed present truthy field appears
with its raw value while a listed absent field is omitted. -/
theorem detailFieldsPayload_mem_witness :
    ("warnings", Json.arr [.str "w1"]) ∈
      detailFieldsPayload (.obj [("warnings", .arr [.str "w1"]), ("set_id", .str "s1")])
        ["warnings", "boxed_warning"] :=
  (detailFieldsPayload_mem (.obj [("warnings", .arr [.str "w1"]), ("set_id", .str "s1")])
      ["warnings", "boxed_warning"] "warnings" (.arr [.str "w1"])).mpr
    ⟨by decide, rfl, rfl⟩

/-- C7 (counterexample): for the name-lookup invocation with name `ibuprofen`
and limit 3, the constructed URL carries no `skip` parameter at all — the
source guards it with `if (params.skip)`, and 0 is falsy — and its `search`
parameter is the three-clause OR expression rather than the claimed
parenthesized two-clause form, so the claimed query string (with `skip=0`
present) is not what is issued. -/
theorem indications_url_counterexample :
    (makeRequestUrlParams (indicationsQueryParams "ibuprofen" 3)).lookup "skip" = none ∧
    (makeRequestUrlParams (indicationsQueryParams "ibuprofen" 3)).lookup "limit" = some "3" ∧
    (makeRequestUrlParams (indicationsQueryParams "ibuprofen" 3)).lookup "search" =
      some "openfda.brand_name:\"ibuprofen\" OR openfda.generic_name:\"ibuprofen\" OR openfda.substance_name:\"ibuprofen\"" ∧
    indicationsSearchQuery "ibuprofen" ≠
      "(openfda.brand_name:\"ibuprofen\")+(openfda.generic_name:\"ibuprofen\")" := by
  refine ⟨rfl, rfl, rfl, by decide⟩

/-- C7 (amended): the invocation with name `ibuprofen` and limit 3 sends
exactly the parameters `search` = the three-clause OR expression and
`limit=3` — `skip` is omitted because 0 is falsy — and, whenever the upstream
response carries at most three results, returns a single text content block
whose JSON payload's `indications_data` array has length at most 3. -/
theorem indications_ibuprofen_amended
    (fetch : DrugLabelSearchParams → Except String OpenFDAResponse)
    (data : OpenFDAResponse)
    (hok : fetch (indicationsQueryParams "ibuprofen" 3) = .ok data)
    (hlen : (data.results.getD []).length ≤ 3) :
    makeRequestUrlParams (indicationsQueryParams "ibuprofen" 3) =
      [("search", indicationsSearchQuery "ibuprofen"), ("limit", "3")] ∧
    getDrugIndicationsRun "ibuprofen" 3 fetch = .ok (indicationsResult "ibuprofen" data) ∧
    ∃ l, (indicationsPayload "ibuprofen" data).getField "indications_data" =
        some (.arr l) ∧ l.length ≤ 3 := by
  refine ⟨by decide, ?_, ?_⟩
  · unfold getDrugIndicationsRun
    rw [hok]
  · refine ⟨(data.results.getD []).map indicationsEntry, rfl, by simpa using hlen⟩

/-- C7 (witness): against a concrete upstream returning one record, the
invocation returns the shaped result and its data array has length at
most 3. -/
theorem indications_ibuprofen_witness :
    getDrugIndicationsRun "ibuprofen" 3 fetchOneRecordOk =
      .ok (indicationsResult "ibuprofen" { meta := none, results := some [.obj []] }) ∧
    ∃ l, (indicationsPayload "ibuprofen"
        { meta := none, results := some [.obj []] }).getField "indications_data" =
      some (.arr l) ∧ l.length ≤ 3 :=
  have h := indications_ibuprofen_amended fetchOneRecordOk
    { meta := none, results := some [.obj []] } rfl (by decide)
  ⟨h.2.1, h.2.2⟩

/-- C8: the detail lookup's constructed query has search expression exactly
`set_id:"<identifier>"` with the identifier interpolated verbatim (no
escaping), a limit of exactly 1, skip 0 and no count, independent of any
caller-supplied field list. -/
theorem detailQuery_setId_limit1 (s : String) :
    (detailQueryParams s).search = some ("set_id:\"" ++ s ++ "\"") ∧
    (detailQueryParams s).limit = 1 ∧
    (detailQueryParams s).skip = 0 ∧
    (detailQueryParams s).count = none :=
  ⟨rfl, rfl, rfl, rfl⟩

/-- C9: whenever the health probe's upstream fetch fails, the probe completes
as a successful tool result whose single text block is exactly the string
`error: ` followed by the failure message, and no protocol-level error is
surfaced. -/
theorem healthProbe_error_text (fetch : DrugLabelSearchParams → Except String Json)
    (msg : String) (h : fetch healthProbeQueryParams = .error msg) :
    healthProbeRun fetch =
      .ok { content := [{ type := "text", text := "error: " ++ msg }] } ∧
    ∀ e, healthProbeRun fetch ≠ .error e := by
  constructor
  · unfold healthProbeRun
    rw [h]
  · intro e hcontra
    unfold healthProbeRun at hcontra
    rw [h] at hcontra
    simp at hcontra

/-- C9 (witness): a concrete failing upstream yields exactly the
`error: <message>` text block. -/
theorem healthProbe_error_text_witness :
    healthProbeRun fetchAlwaysErr =
      .ok { content := [{ type := "text", text := "error: " ++ "OpenFDA API error (500): boom" }] } :=
  (healthProbe_error_text fetchAlwaysErr "OpenFDA API error (500): boom" rfl).1

theorem decodeArgs_error_shape (jsonParse : String → Except String Json)
    (rawArgs : RawArgs) (e : Thrown)
    (h : decodeArgs jsonParse rawArgs = .error e) :
    ∃ m, e = .mcp .invalidParams m := by
  cases rawArgs with
  | value j => simp [decodeArgs] at h
  | absent => simp [decodeArgs] at h
  | encoded s =>
    cases hp : jsonParse s with
    | ok j => simp [decodeArgs, hp] at h
    | error msg =>
      simp [decodeArgs, hp] at h
      exact ⟨_, h.symm⟩

/-- C10: every failure the dispatch handler surfaces is a structured McpError
— it never yields a raw exception; an McpError arising during validation or
dispatch propagates unchanged, and every other exception thrown by a tool
body is wrapped as an InternalError whose message names the invoked tool. -/
theorem callToolHandler_structured_errors
    (jsonParse : String → Except String Json)
    (exec : String → Json → Except Thrown ToolResult)
    (name : String) (rawArgs : RawArgs) :
    (∀ m, callToolHandler jsonParse exec name rawArgs ≠ .error (.js m)) ∧
    (∀ args c m, decodeArgs jsonParse rawArgs = .ok (some args) → args.truthy = true →
      name ∈ knownToolNames → exec name args = .error (.mcp c m) →
      callToolHandler jsonParse exec name rawArgs = .error (.mcp c m)) ∧
    (∀ args m, decodeArgs jsonParse rawArgs = .ok (some args) → args.truthy = true →
      name ∈ knownToolNames → exec name args = .error (.js m) →
      callToolHandler jsonParse exec name rawArgs =
        .error (.mcp .internalError ("Error executing tool " ++ name ++ ": " ++ m))) := by
  refine ⟨?_, ?_, ?_⟩
  · intro m hcontra
    unfold callToolHandler at hcontra
    cases hdec : decodeArgs jsonParse rawArgs with
    | error e =>
      rw [hdec] at hcontra
      obtain ⟨m2, rfl⟩ := decodeArgs_error_shape _ _ _ hdec
      simp at hcontra
    | ok decoded =>
      rw [hdec] at hcontra
      cases decoded with
      | none => simp at hcontra
      | some args =>
        by_cases ht : args.truthy
        · simp only [ht, if_true] at hcontra
          cases hbody : (if name ∈ knownToolNames then exec name args
              else .error (.mcp .methodNotFound ("Unknown tool: " ++ name))) with
          | ok r => rw [hbody] at hcontra; simp at hcontra
          | error t =>
            rw [hbody] at hcontra
            cases t with
            | mcp c msg => simp at hcontra
            | js msg => simp at hcontra
        · simp [ht] at hcontra
  · intro args c m hdec ht hknown hexec
    unfold callToolHandler
    rw [hdec]
    simp only [ht, if_true]
    rw [if_pos hknown, hexec]
  · intro args m hdec ht hknown hexec
    unfold callToolHandler
    rw [hdec]
    simp only [ht, if_true]
    rw [if_pos hknown, hexec]

/-- C10 (witness): a tool body throwing a raw exception surfaces as an
InternalError McpError whose message names the tool. -/
theorem callToolHandler_structured_errors_witness :
    callToolHandler jsonParseFail execThrowsJs "get_drug_details" (.value (.obj [])) =
      .error (.mcp .internalError
        ("Error executing tool " ++ "get_drug_details" ++ ": " ++ "boom")) :=
  (callToolHandler_structured_errors jsonParseFail execThrowsJs "get_drug_details"
    (.value (.obj []))).2.2 (.obj []) "boom" rfl rfl (by decide) rfl
